import Mathlib

/-!
Verification of the AvTahbura matching/scoring/response-quality engine.

Texts are modelled as `List Char`. JavaScript regexes in the source are
compiled without the `u` flag, so their character classes are:
  `\w` = `[A-Za-z0-9_]` (Hebrew letters are NOT word characters),
  `\d` = `[0-9]`,
  `\s` = whitespace (the texts in scope use only the ASCII space,
         tab, newline, carriage return; we also include `\f`, `\v`
         and NBSP which `\s` accepts).
`\b` holds at a position iff exactly one of the two adjacent characters
(start/end of text counting as no character) is a word character.
-/

set_option maxRecDepth 100000

namespace AvTahbura

/-- JS `\w` without the `u` flag: ASCII letters, digits and underscore. -/
def isWordChar (c : Char) : Bool :=
  (('a' ≤ c && c ≤ 'z') || ('A' ≤ c && c ≤ 'Z') || ('0' ≤ c && c ≤ '9') || c == '_')

/-- JS `\d`: ASCII digits. -/
def isDigitChar (c : Char) : Bool :=
  ('0' ≤ c && c ≤ '9')

/-- JS `\s` restricted to the characters occurring in this code base. -/
def isSpaceChar (c : Char) : Bool :=
  (c == ' ' || c == '\t' || c == '\n' || c == '\r' || c == '\x0b' || c == '\x0c' || c == ' ')

/-- The character of `text` at index `i`, if any. -/
def charAt (text : List Char) (i : Nat) : Option Char :=
  text.get? i

/-- Whether the character at index `i` is a word character (out of range counts as no). -/
def wordAt (text : List Char) (i : Nat) : Bool :=
  match charAt text i with
  | some c => isWordChar c
  | none => false

/-- JS `\b`: a word boundary between positions `i-1` and `i`
(`i` ranges over `0 .. text.length`). -/
def boundaryAt (text : List Char) (i : Nat) : Bool :=
  (if i = 0 then false else wordAt text (i - 1)) != wordAt text i

/-- The sublist of `text` starting at index `i` equals `pat`
(the JS regex engine matching a literal at a position). -/
def literalAt (text : List Char) (i : Nat) (pat : List Char) : Bool :=
  (text.drop i).take pat.length == pat

/-- JS `hay.includes(needle)`: substring test. -/
def containsSub (hay : List Char) (needle : List Char) : Bool :=
  (List.range (hay.length + 1)).any fun i => literalAt hay i needle

/-- First regex of the line matcher, `new RegExp(`\b<line>\b`)`:
the target between word boundaries. -/
def linePattern1 (text target : List Char) : Bool :=
  (List.range (text.length + 1)).any fun i =>
    boundaryAt text i && literalAt text i target && boundaryAt text (i + target.length)

/-- Second regex of the line matcher, `קו\s+<line>\b`: the word "קו",
one or more whitespace characters, the target, then a word boundary. -/
def linePattern2 (text target : List Char) : Bool :=
  (List.range (text.length + 1)).any fun i =>
    literalAt text i ['ק', 'ו'] &&
    (List.range (text.length + 1)).any fun k =>
      1 ≤ k &&
      ((text.drop (i + 2)).take k).length == k &&
      ((text.drop (i + 2)).take k).all isSpaceChar &&
      literalAt text (i + 2 + k) target &&
      boundaryAt text (i + 2 + k + target.length)

/-- Third regex of the line matcher, `קווים[^0-9]*<line>\b`: the word
"קווים", any non-digit filler, the target, then a word boundary. -/
def linePattern3 (text target : List Char) : Bool :=
  (List.range (text.length + 1)).any fun i =>
    literalAt text i ['ק', 'ו', 'ו', 'י', 'ם'] &&
    (List.range (text.length + 1)).any fun k =>
      ((text.drop (i + 5)).take k).length == k &&
      ((text.drop (i + 5)).take k).all (fun c => !isDigitChar c) &&
      literalAt text (i + 5 + k) target &&
      boundaryAt text (i + 5 + k + target.length)

/-- The boundary-safe line matcher of the `/search-by-line` endpoint
(and of the word-boundary test file): a target line identifier matches a
text iff one of its three patterns matches. -/
def lineMatches (text target : List Char) : Bool :=
  linePattern1 text target || linePattern2 text target || linePattern3 text target

/-!
Response validator (GPT response improvements module).
-/

/-- One match attempt of the global regex `/קו[ות]?\s*(\d+)/g` at the head
of `l`.  Returns the full matched text, the digits captured by `(\d+)` and
the remainder of the input after the match.  The pieces `[ות]`, `\s` and
`\d` match pairwise disjoint character sets, so the regex engine's greedy
matching with backtracking is deterministic here: the optional letter is
taken iff present, then the maximal whitespace run, then a maximal
non-empty digit run. -/
def kavMentionStep (l : List Char) : Option (List Char × List Char × List Char) :=
  match l with
  | 'ק' :: 'ו' :: rest =>
    let opt : List Char :=
      match rest with
      | c :: _ => if c == 'ו' || c == 'ת' then [c] else []
      | [] => []
    let rest1 := rest.drop opt.length
    let spaces := rest1.takeWhile isSpaceChar
    let rest2 := rest1.drop spaces.length
    let digits := rest2.takeWhile isDigitChar
    if digits.isEmpty then none
    else some ('ק' :: 'ו' :: (opt ++ spaces ++ digits), digits, rest2.drop digits.length)
  | _ => none

/-- Successive non-overlapping leftmost matches of `/קו[ות]?\s*(\d+)/g`,
as produced by `String.prototype.match` with a global regex: on a failed
attempt the engine advances one character, on a success it continues after
the match.  The fuel argument is the length of the scanned text; every
step consumes at least one character, so it never runs out. -/
def kavMentionScan : Nat → List Char → List (List Char × List Char)
  | 0, _ => []
  | _, [] => []
  | fuel + 1, c :: rest =>
    match kavMentionStep (c :: rest) with
    | some (full, digits, remaining) => (full, digits) :: kavMentionScan fuel remaining
    | none => kavMentionScan fuel rest

/-- All matches of `/קו[ות]?\s*(\d+)/g` in `text`, paired with their
captured digit strings. -/
def kavMentions (text : List Char) : List (List Char × List Char) :=
  kavMentionScan text.length text

/-- The authoritative registry of valid Jerusalem bus lines
(`validBusLines` in the source, a `Set` of digit strings). -/
def validBusLines : List (List Char) :=
  (["1", "2", "3", "4", "5", "6", "7", "8", "9", "11", "12", "13", "14", "15",
    "16", "17", "18", "19", "20", "21", "23", "24", "26", "27", "28", "29",
    "30", "31", "32", "34", "35", "36", "37", "38", "39", "40", "42", "43",
    "46", "47", "49", "51", "52", "54", "56", "58", "60", "62", "64", "66",
    "67", "68", "71", "72", "74", "75", "77", "78", "82", "83", "101", "102",
    "103", "104", "105", "106", "110", "111", "115", "117", "118", "119",
    "120", "121", "122", "123", "124", "125", "128", "130", "133", "134",
    "160", "161", "163", "164", "165", "166", "167", "170", "174", "175",
    "176", "177", "178", "200", "201", "202", "203", "204", "210", "215",
    "230", "231", "232", "234", "235", "236", "237", "238", "239", "240",
    "243", "246", "249", "250", "251", "252", "253", "254", "255", "256",
    "270", "271", "272", "273", "274", "275", "301", "302", "304", "315",
    "316", "320", "322", "331", "332", "334", "336", "402", "403", "404",
    "405", "406", "407", "408", "409", "410", "411", "412", "413", "414",
    "415", "416", "417", "418", "419", "420", "421", "422", "423", "424",
    "425", "426", "427", "428", "429", "430", "480", "485", "486", "487"]
   : List String).map String.toList

/-- Source `detectHallucinations`: every line number mentioned as `קו N` in the
response whose digit string is not in the registry. -/
def detectHallucinations (response : List Char) : List (List Char) :=
  ((kavMentions response).map (fun m => m.2)).filter fun d => !(validBusLines.contains d)

/-- The fixed gazetteer used by `extractLocations` in the response
validator module. -/
def validatorLocations : List (List Char) :=
  (["הכותל", "מרכז העיר", "תחנה מרכזית", "הר הצופים", "גילה", "רמות",
    "פסגת זאב", "נווה יעקב", "בית וגן", "קטמון", "תלפיות", "ארמון הנציב",
    "מלחה", "עין כרם", "הדסה", "גבעת רם", "רמת אשכול", "רמת שלמה"]
   : List String).map String.toList

/-- Source `extractLocations`: the gazetteer entries occurring as substrings. -/
def extractLocations (text : List Char) : List (List Char) :=
  validatorLocations.filter fun loc => containsSub text loc

/-- The fixed domain keyword list of `extractKeyTerms`. -/
def validatorKeywords : List (List Char) :=
  (["שינוי", "ביטול", "הוספה", "תדירות", "מסלול", "תחנה", "זמנים"]
   : List String).map String.toList

/-- Source `extractKeyTerms`: the `קו N` mentions (their full matched text; the
source applies `.trim()`, a no-op since a match starts with a letter and
ends with a digit), the gazetteer hits, and the domain keywords present. -/
def extractKeyTerms (text : List Char) : List (List Char) :=
  ((kavMentions text).map fun m => m.1) ++ extractLocations text ++
    (validatorKeywords.filter fun w => containsSub text w)

/-- Source `checkRelevance`: the response must contain at least half of the key
terms of the inquiry.  The source computes `matched / terms.length >= 0.5`
with floating-point division: when `terms` is empty this is `NaN >= 0.5`,
which is false, so an empty term list fails the check for every response;
otherwise the comparison is exact and equals `2 * matched ≥ terms.length`
(`0.5` is a power of two and float rounding is monotone). -/
def checkRelevance (response inquiry : List Char) : Bool :=
  let terms := extractKeyTerms inquiry
  let matched := (terms.filter (fun t => containsSub response t)).length
  !terms.isEmpty && decide (terms.length ≤ 2 * matched)

/-- Number of characters of the response inside the Hebrew Unicode block,
`(response.match(/[֐-׿]/g) || []).length` in the source. -/
def hebrewCharCount (response : List Char) : Nat :=
  (response.filter fun c => '֐' ≤ c && c ≤ '׿').length

/-- JS `String.prototype.trim` restricted to the whitespace characters in
scope. -/
def trimChars (l : List Char) : List Char :=
  ((l.dropWhile isSpaceChar).reverse.dropWhile isSpaceChar).reverse

/-- Source `hasProperStructure`: fixed greeting prefix after trimming, at least
two sentences of trimmed length above ten, and the fixed signature. -/
def hasProperStructure (response : List Char) : Bool :=
  let hasGreeting := literalAt (trimChars response) 0 "שלום,".toList
  let sentences := (response.splitOnP fun c => c == '.' || c == '!' || c == '?').filter
    fun s => 10 < (trimChars s).length
  let hasContent := 2 ≤ sentences.length
  let hasSignature := containsSub response "בברכה, תוכנית אב לתחבורה".toList
  hasGreeting && hasContent && hasSignature

/-- Penalty of the minimum-length check (−20 below 100 characters). -/
def lengthPenalty (response : List Char) : Int :=
  if response.length < 100 then 20 else 0

/-- Penalty of the Hebrew-script-fraction check (−30 when the fraction of
Hebrew-block characters is below `0.7`); the comparison
`hebrewCount / length < 0.7` is stated exactly over the integers (for
length `0` the source compares `NaN < 0.7`, false, matching `0 < 0`). -/
def hebrewScriptPenalty (response : List Char) : Int :=
  if hebrewCharCount response * 10 < response.length * 7 then 30 else 0

/-- Penalty of the relevance check (−25 when `checkRelevance` fails). -/
def relevancePenalty (response inquiry : List Char) : Int :=
  if checkRelevance response inquiry then 0 else 25

/-- Penalty of the structure check (−10 when `hasProperStructure` fails). -/
def structurePenalty (response : List Char) : Int :=
  if hasProperStructure response then 0 else 10

/-- The score computed by `validateGPTResponse`: 100 minus the penalties
of the five checks (the hallucination check deducts 15 per offending
line). -/
def responseScore (response inquiry : List Char) : Int :=
  100 - lengthPenalty response - hebrewScriptPenalty response
    - relevancePenalty response inquiry
    - 15 * (detectHallucinations response).length
    - structurePenalty response

/-- Result record of `validateGPTResponse`. -/
structure ValidationResult where
  isValid : Bool
  issues : List (List Char)
  score : Int
deriving DecidableEq

/-- The issue messages pushed by `validateGPTResponse`, in source order. -/
def responseIssues (response inquiry : List Char) : List (List Char) :=
  (if response.length < 100 then ["התשובה קצרה מדי".toList] else []) ++
  (if hebrewCharCount response * 10 < response.length * 7 then
    ["התשובה לא בעברית תקינה".toList] else []) ++
  (if checkRelevance response inquiry then [] else ["התשובה לא רלוונטית לפנייה".toList]) ++
  (if (detectHallucinations response).isEmpty then [] else
    [("נמצאו קווים לא קיימים: ".toList ++
      List.intercalate ", ".toList (detectHallucinations response))]) ++
  (if hasProperStructure response then [] else ["התשובה חסרת מבנה ברור".toList])

/-- Source `validateGPTResponse`.  The source sets `isValid = false` inside the
Hebrew-script and hallucination branches, but its final statement
`validationResults.isValid = validationResults.score >= 60` overwrites
those assignments unconditionally, so the returned flag only reflects the
final score. -/
def validateGPTResponse (response inquiry : List Char) : ValidationResult :=
  { isValid := decide (60 ≤ responseScore response inquiry)
    issues := responseIssues response inquiry
    score := responseScore response inquiry }

/-!
Response cache (bounded, time-expiring store over a JS `Map`).
-/

/-- ASCII lowercasing, `String.prototype.toLowerCase` restricted to the
scripts in scope (Unicode case mapping is the identity on Hebrew letters,
digits and punctuation, which is all that occurs in this code base). -/
def jsToLower (c : Char) : Char :=
  if 'A' ≤ c && c ≤ 'Z' then Char.ofNat (c.toNat + 32) else c

/-- Collapse every whitespace run to a single space,
`.replace(/\s+/g, ' ')`. -/
def collapseSpaces (l : List Char) : List Char :=
  l.foldr
    (fun c acc =>
      if isSpaceChar c then
        match acc with
        | ' ' :: _ => acc
        | _ => ' ' :: acc
      else c :: acc) []

/-- A cache entry: the stored response, its insertion timestamp
(`Date.now()` in milliseconds) and a hit counter (set to `0` on write and
never incremented by `get` in this class). -/
structure CacheEntry where
  response : List Char
  timestamp : Nat
  hits : Nat
deriving DecidableEq

/-- The `ResponseCache` state: a JS `Map` modelled as an
insertion-ordered association list (unique keys in every reachable
state), the capacity and the TTL in milliseconds. -/
structure ResponseCache where
  cache : List (List Char × CacheEntry)
  maxSize : Nat
  ttl : Nat
deriving DecidableEq

/-- JS `Map.prototype.get`. -/
def mapGet (k : List Char) (l : List (List Char × CacheEntry)) : Option CacheEntry :=
  (l.find? fun p => p.1 == k).map fun p => p.2

/-- JS `Map.prototype.set`: an existing key keeps its position in the
insertion order and gets the new value; a new key is appended. -/
def mapSet (k : List Char) (v : CacheEntry) :
    List (List Char × CacheEntry) → List (List Char × CacheEntry)
  | [] => [(k, v)]
  | p :: t => if p.1 == k then (k, v) :: t else p :: mapSet k v t

/-- JS `Map.prototype.delete` (keys are unique in reachable states, so
removing the first occurrence is the `Map` behavior). -/
def mapDelete (k : List Char) :
    List (List Char × CacheEntry) → List (List Char × CacheEntry)
  | [] => []
  | p :: t => if p.1 == k then t else p :: mapDelete k t

/-- Source `generateKey`: lowercase, strip characters outside the Hebrew block /
`\w` / `\s`, collapse whitespace, trim, and append the history flag
(JS renders the boolean as `true`/`false`). -/
def generateKey (inquiry : List Char) (hasHistory : Bool) : List Char :=
  let normalized :=
    trimChars (collapseSpaces ((inquiry.map jsToLower).filter fun c =>
      ('֐' ≤ c && c ≤ '׿') || isWordChar c || isSpaceChar c))
  normalized ++ '_' :: (if hasHistory then "true".toList else "false".toList)

/-- Source `ResponseCache.get` at the level of a normalized key: a missing key
returns null; an entry whose age exceeds the TTL is deleted and null is
returned (lazy expiry); a fresh entry is returned with the store left
untouched (reads perform no promotion).  `now` is `Date.now()`; ages are
never negative in JS here, matching truncated subtraction. -/
def cacheGet (c : ResponseCache) (now : Nat) (key : List Char) :
    Option (List Char) × ResponseCache :=
  match mapGet key c.cache with
  | none => (none, c)
  | some e =>
    if c.ttl < now - e.timestamp then (none, { c with cache := mapDelete key c.cache })
    else (some e.response, c)

/-- Source `ResponseCache.set` at the level of a normalized key: when the store
has reached its capacity the first key in insertion order (the oldest
entry) is deleted, then the new entry is written with the current
timestamp and a zero hit counter. -/
def cacheSet (c : ResponseCache) (now : Nat) (key value : List Char) : ResponseCache :=
  let base :=
    if c.maxSize ≤ c.cache.length then
      match c.cache with
      | [] => ([] : List (List Char × CacheEntry))
      | e :: t => mapDelete e.1 (e :: t)
    else c.cache
  { c with cache := mapSet key ⟨value, now, 0⟩ base }

/-- Source `ResponseCache.get(inquiry, historicalResponse)` of the source,
deriving the key. -/
def responseCacheGet (c : ResponseCache) (now : Nat) (inquiry : List Char)
    (hasHistory : Bool) : Option (List Char) × ResponseCache :=
  cacheGet c now (generateKey inquiry hasHistory)

/-- Source `ResponseCache.set(inquiry, historicalResponse, response)` of the
source, deriving the key. -/
def responseCacheSet (c : ResponseCache) (now : Nat) (inquiry : List Char)
    (hasHistory : Bool) (value : List Char) : ResponseCache :=
  cacheSet c now (generateKey inquiry hasHistory) value

/-!
Conversation context (bounded per-session turn history).
-/

/-- One stored interaction of `ConversationContext`. -/
structure ConversationTurn where
  inquiry : List Char
  response : List Char
  timestamp : Nat
  metadata : List (List Char × List Char)
deriving DecidableEq

/-- The `ConversationContext` state: session id, turn history, the bound
`maxHistory` (5 in the constructor) and the topic-frequency map of the
user profile. -/
structure ConversationContext where
  sessionId : List Char
  history : List ConversationTurn
  maxHistory : Nat
  frequentTopics : List (List Char × Nat)
deriving DecidableEq

/-- The `ConversationContext` constructor. -/
def newConversationContext (sessionId : List Char) : ConversationContext :=
  ⟨sessionId, [], 5, []⟩

/-- Increment a topic counter in the frequency map (`(map[t] || 0) + 1`). -/
def bumpTopic (m : List (List Char × Nat)) (t : List Char) : List (List Char × Nat) :=
  if m.any (fun p => p.1 == t) then m.map fun p => if p.1 == t then (p.1, p.2 + 1) else p
  else m ++ [(t, 1)]

/-- Source `updateUserProfile`: count every key term of the inquiry. -/
def updateUserProfile (ctx : ConversationContext) (inquiry : List Char) :
    ConversationContext :=
  { ctx with frequentTopics := (extractKeyTerms inquiry).foldl bumpTopic ctx.frequentTopics }

/-- Source `addInteraction`: push the new turn, drop the oldest turn (`shift`)
when the bound is exceeded, then update the user profile. -/
def addInteraction (ctx : ConversationContext) (now : Nat)
    (inquiry response : List Char) (metadata : List (List Char × List Char)) :
    ConversationContext :=
  let pushed := ctx.history ++ [⟨inquiry, response, now, metadata⟩]
  let bounded := if ctx.maxHistory < pushed.length then pushed.tail else pushed
  updateUserProfile { ctx with history := bounded } inquiry

/-!
Entity signal extraction (`extractLineNumbers`, `analyzeQuery`).
-/

/-- One match attempt of `/קו[\s]*([0-9]+)/g` at the head of `l`
(the line-number extractor's Hebrew pattern has no optional `[ות]`):
maximal whitespace run after `קו`, then a non-empty maximal digit run. -/
def kavNumberStep (l : List Char) : Option (List Char × List Char) :=
  match l with
  | 'ק' :: 'ו' :: rest =>
    let spaces := rest.takeWhile isSpaceChar
    let rest1 := rest.drop spaces.length
    let digits := rest1.takeWhile isDigitChar
    if digits.isEmpty then none else some (digits, rest1.drop digits.length)
  | _ => none

/-- Successive leftmost matches of `/קו[\s]*([0-9]+)/g` (fuel as in
`kavMentionScan`). -/
def kavNumberScan : Nat → List Char → List (List Char)
  | 0, _ => []
  | _, [] => []
  | fuel + 1, c :: rest =>
    match kavNumberStep (c :: rest) with
    | some (digits, remaining) => digits :: kavNumberScan fuel remaining
    | none => kavNumberScan fuel rest

/-- One match attempt of `/line[\s]*([0-9]+)/gi` at the head of `l`
(case-insensitive `line`). -/
def lineWordStep (l : List Char) : Option (List Char × List Char) :=
  match l with
  | a :: b :: c :: d :: rest =>
    if jsToLower a == 'l' && jsToLower b == 'i' && jsToLower c == 'n' && jsToLower d == 'e' then
      let spaces := rest.takeWhile isSpaceChar
      let rest1 := rest.drop spaces.length
      let digits := rest1.takeWhile isDigitChar
      if digits.isEmpty then none else some (digits, rest1.drop digits.length)
    else none
  | _ => none

/-- Successive leftmost matches of `/line[\s]*([0-9]+)/gi`. -/
def lineWordScan : Nat → List Char → List (List Char)
  | 0, _ => []
  | _, [] => []
  | fuel + 1, c :: rest =>
    match lineWordStep (c :: rest) with
    | some (digits, remaining) => digits :: lineWordScan fuel remaining
    | none => lineWordScan fuel rest

/-- Successive matches of `/\b([0-9]{2,3})\b/g`.  The engine can only
match at the start of a maximal digit run whose left neighbour is not a
word character (inside a run both neighbours are digits, so `\b` fails);
the greedy `{2,3}` then succeeds exactly when the whole run has length 2
or 3 and its right neighbour is not a word character (a longer run makes
both the 3- and the 2-digit attempt fail the trailing `\b`).  The Boolean
argument records whether the previous character was a word character. -/
def standaloneScan : Nat → Bool → List Char → List (List Char)
  | 0, _, _ => []
  | _, _, [] => []
  | fuel + 1, prevWord, c :: rest =>
    if isDigitChar c then
      let run := c :: rest.takeWhile isDigitChar
      let after := rest.dropWhile isDigitChar
      let okRun := !prevWord && (run.length == 2 || run.length == 3) &&
        (match after with
         | [] => true
         | d :: _ => !isWordChar d)
      if okRun then run :: standaloneScan fuel true after
      else standaloneScan fuel true after
    else standaloneScan fuel (isWordChar c) rest

/-- Digit-string to number, `parseInt` on a `[0-9]+` capture. -/
def digitsToNat (ds : List Char) : Nat :=
  ds.foldl (fun acc c => acc * 10 + (c.toNat - '0'.toNat)) 0

/-- Source `extractLineNumbers`: collect the captures of the three patterns in
pattern order, parse them, and keep values in `[1, 999]` deduplicating
while preserving first-seen order. -/
def extractLineNumbers (text : List Char) : List Nat :=
  let captures := kavNumberScan text.length text ++ lineWordScan text.length text ++
    standaloneScan text.length false text
  (captures.map digitsToNat).foldl
    (fun acc n => if 1 ≤ n ∧ n ≤ 999 ∧ ¬acc.contains n then acc ++ [n] else acc) []

/-- Source `parseInt` on an arbitrary word: value of the maximal leading digit
run, none when there is no leading digit (`NaN`).  A leading sign never
produces a value inside `[1, 999]`, the only range compared against. -/
def parseIntLeading (w : List Char) : Option Nat :=
  let digits := w.takeWhile isDigitChar
  if digits.isEmpty then none else some (digitsToNat digits)

/-- JS `split(/\s+/)` followed by the length filters used at every call
site: the possible empty first/last fields of the JS split have length 0
and are dropped by those filters, so tokenizing without empty fields is
equivalent. -/
def splitWs (l : List Char) : List (List Char) :=
  (l.splitOnP isSpaceChar).filter fun w => !w.isEmpty

/-- The `QuerySignals` record produced by `analyzeQuery`. -/
structure QueryAnalysis where
  busLines : List Nat
  locations : List (List Char)
  problemType : Option (List Char)
  keywords : List (List Char)
deriving DecidableEq

/-- The fixed gazetteer of `analyzeQuery` (Jerusalem neighbourhoods). -/
def queryLocations : List (List Char) :=
  (["רמות", "גילה", "פסגת זאב", "הר נוף", "קרית יובל", "תלפיות", "בית וגן",
    "רמת שלמה", "גאולה", "מאה שערים", "העיר העתיקה", "ממילא", "נחלאות",
    "קטמון", "בקעה", "ארנונה", "רחביה", "טלביה", "ימין משה", "משכנות שאננים",
    "עין כרם", "מלחה", "בית הכרם", "בית שמש", "מעלה אדומים", "גבעת זאב",
    "הדסה", "הר הצופים", "גבעת רם", "גבעת מרדכי", "רוממה", "סנהדריה",
    "הר חוצבים", "רמת אשכול", "רמת דניה", "אבו טור", "ארמון הנציב", "גבעת המבתר"]
   : List String).map String.toList

/-- The ordered problem-type rules of `analyzeQuery` (keyword set, label). -/
def problemTypeRules : List (List String × String) :=
  [(["שינוי מסלול", "שנה מסלול", "לשנות מסלול"], "שינוי מסלול"),
   (["הוספת תחנה", "תחנה חדשה", "להוסיף תחנה"], "הוספת תחנה"),
   (["ביטול תחנה", "לבטל תחנה", "הסרת תחנה"], "ביטול תחנה"),
   (["עומס", "צפיפות", "עמוס", "מלא"], "עומס נוסעים"),
   (["תדירות", "הגברת", "תוספת נסיעות", "יותר אוטובוסים"], "תדירות"),
   (["לוח זמנים", "לו\"ז", "שעות פעילות", "מתי מגיע"], "לוח זמנים"),
   (["נגישות", "כסא גלגלים", "מוגבלות", "נכים"], "נגישות"),
   (["איחור", "עיכוב", "דילוג", "לא הגיע"], "איחורים"),
   (["הארכת קו", "להאריך", "הארכת מסלול"], "הארכת קו"),
   (["קיצור קו", "לקצר", "קיצור מסלול"], "קיצור קו"),
   (["קו חדש", "בקשה לקו", "אין קו"], "קו חדש"),
   (["תלונה", "להתלונן", "בעיה עם"], "תלונה"),
   (["בטיחות", "סכנה", "מסוכן"], "בטיחות")]

/-- First problem-type rule with a keyword occurring in the text. -/
def detectProblemType (text : List Char) : Option (List Char) :=
  match problemTypeRules.find? (fun r => r.1.any fun kw => containsSub text kw.toList) with
  | some r => some r.2.toList
  | none => none

/-- The stop-word list of `analyzeQuery`. -/
def commonWords : List (List Char) :=
  (["את", "של", "על", "עם", "אני", "הוא", "היא", "זה", "יש", "אין", "לא", "כן"]
   : List String).map String.toList

/-- Source `analyzeQuery`: line numbers, gazetteer hits, first matching problem
type and up to five residual keywords. -/
def analyzeQuery (text : List Char) : QueryAnalysis :=
  let busLines := extractLineNumbers text
  let locations := queryLocations.filter fun loc => containsSub text loc
  let problemType := detectProblemType text
  let keywords := ((splitWs text).filter fun w =>
    decide (2 < w.length) && !commonWords.contains w &&
    !(match parseIntLeading w with
      | some n => busLines.contains n
      | none => false) &&
    !locations.contains w).take 5
  ⟨busLines, locations, problemType, keywords⟩

/-!
Structured-first fusion (`findSmartMatches`).
-/

/-- A historical record; `summary` is the `תמצית` column, `inquiry_text`
the `הפניה` column and `response_text` the `תיאור` column. -/
structure Entry where
  summary : List Char
  inquiry_text : List Char
  response_text : List Char
deriving DecidableEq

/-- The combined record text scored by `findSmartMatches`,
`` `${summary} ${inquiry} ${response}`.toLowerCase() ``. -/
def entryCombinedText (e : Entry) : List Char :=
  ((e.summary ++ ' ' :: e.inquiry_text) ++ ' ' :: e.response_text).map jsToLower

/-- Join numbers as JS `array.join(', ')`. -/
def joinNums (ns : List Nat) : List Char :=
  List.intercalate ", ".toList (ns.map fun n => Nat.toDigits 10 n)

/-- Bus-line component of the smart score (40% weight): applied only
when the query has line numbers and the record shares at least one. -/
def smartScoreLines (qa : QueryAnalysis) (combined : List Char) : ℚ × List (List Char) :=
  if !qa.busLines.isEmpty then
    let entryLines := extractLineNumbers combined
    let matching := qa.busLines.filter fun n => entryLines.contains n
    if !matching.isEmpty then
      (((0.4 : ℚ)) * ((matching.length : ℚ) / (qa.busLines.length : ℚ)),
       ["קווים: ".toList ++ joinNums matching])
    else ((0 : ℚ), ([] : List (List Char)))
  else ((0 : ℚ), ([] : List (List Char)))

/-- Location component of the smart score (30% weight). -/
def smartScoreLocations (qa : QueryAnalysis) (combined : List Char) : ℚ × List (List Char) :=
  if !qa.locations.isEmpty then
    let matching := qa.locations.filter fun loc => containsSub combined loc
    if !matching.isEmpty then
      (((0.3 : ℚ)) * ((matching.length : ℚ) / (qa.locations.length : ℚ)),
       ["מיקומים: ".toList ++ List.intercalate ", ".toList matching])
    else ((0 : ℚ), ([] : List (List Char)))
  else ((0 : ℚ), ([] : List (List Char)))

/-- Problem-type component of the smart score (20% weight): the record's
combined text is re-analyzed and its problem type compared. -/
def smartScoreType (qa : QueryAnalysis) (combined : List Char) : ℚ × List (List Char) :=
  match qa.problemType with
  | some t =>
    if (analyzeQuery combined).problemType == some t then
      ((0.2 : ℚ), ["סוג: ".toList ++ t])
    else ((0 : ℚ), ([] : List (List Char)))
  | none => ((0 : ℚ), ([] : List (List Char)))

/-- Keyword component of the smart score (10% weight). -/
def smartScoreKeywords (qa : QueryAnalysis) (combined : List Char) : ℚ × List (List Char) :=
  if !qa.keywords.isEmpty then
    let matching := qa.keywords.filter fun kw => containsSub combined (kw.map jsToLower)
    if !matching.isEmpty then
      (((0.1 : ℚ)) * ((matching.length : ℚ) / (qa.keywords.length : ℚ)),
       ["מילים: ".toList ++ Nat.toDigits 10 matching.length])
    else ((0 : ℚ), ([] : List (List Char)))
  else ((0 : ℚ), ([] : List (List Char)))

/-- The weighted structured score and the match reasons computed by the
body of the `municipalData.forEach` loop of `findSmartMatches` (the four
components are accumulated in source order). -/
def smartScoreOf (qa : QueryAnalysis) (combined : List Char) : ℚ × List (List Char) :=
  ((smartScoreLines qa combined).1 + (smartScoreLocations qa combined).1 +
     (smartScoreType qa combined).1 + (smartScoreKeywords qa combined).1,
   (smartScoreLines qa combined).2 ++ (smartScoreLocations qa combined).2 ++
     (smartScoreType qa combined).2 ++ (smartScoreKeywords qa combined).2)

/-- An element of the ranked list returned by `findSmartMatches`
(`matchReasons` is the reason list joined with a pipe, as in the source). -/
structure ScoredMatch where
  entry : Entry
  smartScore : ℚ
  matchReasons : List Char
deriving DecidableEq

/-- Source `findSmartMatches`: score every record against the query analysis,
keep scores above `0.15`, sort by score descending and truncate.  The JS
comparator sort is stable, and a stable sort's output is unique, so the
stable `insertionSort` models it exactly. -/
def findSmartMatches (inquiryText : List Char) (municipalData : List Entry)
    (maxResults : Nat) : List ScoredMatch :=
  let qa := analyzeQuery inquiryText
  let scored := municipalData.filterMap fun e =>
    let r := smartScoreOf qa (entryCombinedText e)
    if (0.15 : ℚ) < r.1 then some ⟨e, r.1, List.intercalate " | ".toList r.2⟩
    else none
  (List.insertionSort (fun a b => b.smartScore ≤ a.smartScore) scored).take maxResults

/-!
Lexical (Jaccard) similarity and text-based matching.
-/

/-- The token normalization of `calculateTextSimilarity`: lowercase,
replace every character outside the Hebrew block / `\w` / `\s` by a
space, split on whitespace, drop tokens of length at most one. -/
def normalizeTokens (text : List Char) : List (List Char) :=
  let replaced := (text.map jsToLower).map fun c =>
    if ('֐' ≤ c && c ≤ '׿') || isWordChar c || isSpaceChar c then c else ' '
  (splitWs replaced).filter fun w => decide (1 < w.length)

/-- Source `calculateTextSimilarity`: Jaccard similarity of the two normalized
token sets (the leading `if (!text1 || !text2) return 0` guard fires on
empty strings, which are falsy in JS). -/
def calculateTextSimilarity (text1 text2 : List Char) : ℚ :=
  if text1.isEmpty || text2.isEmpty then 0
  else
    let words1 := normalizeTokens text1
    let words2 := normalizeTokens text2
    if words1.isEmpty || words2.isEmpty then 0
    else
      (((words1.toFinset ∩ words2.toFinset).card : ℚ)) /
        (((words1.toFinset ∪ words2.toFinset).card : ℚ))

/-- An element of the list returned by `findTextMatches` (the source
spreads the entry and adds `similarity`; the `debug` field only repeats
values already determined by the entry and the inquiry). -/
structure ScoredText where
  entry : Entry
  similarity : ℚ
deriving DecidableEq

/-- The record text scanned for line numbers by the two boosting loops,
`entry.inquiry_text + ' ' + entry.response_text`. -/
def entrySearchText (e : Entry) : List Char :=
  e.inquiry_text ++ ' ' :: e.response_text

/-- The final score of one record inside `findTextMatches`: the larger of
the two Jaccard scores, boosted additively by `0.3` times the fraction of
the inquiry's line numbers shared with the record, capped at `1.0`. -/
def scoreEntryText (inquiryText : List Char) (inquiryLineNumbers : List Nat)
    (e : Entry) : ℚ :=
  let inquirySim := calculateTextSimilarity inquiryText e.inquiry_text
  let responseSim := calculateTextSimilarity inquiryText e.response_text
  let textSimilarity := max inquirySim responseSim
  if !inquiryLineNumbers.isEmpty then
    let entryLines := extractLineNumbers (entrySearchText e)
    let common := inquiryLineNumbers.filter fun n => entryLines.contains n
    if !common.isEmpty then
      min 1 (textSimilarity +
        (0.3 : ℚ) * ((common.length : ℚ) / (inquiryLineNumbers.length : ℚ)))
    else textSimilarity
  else textSimilarity

/-- Source `findTextMatches`: score every record, keep scores at or above the
threshold, sort descending (stable) and truncate to `maxResults`. -/
def findTextMatches (inquiryText : List Char) (threshold : ℚ) (maxResults : Nat)
    (municipalData : List Entry) : List ScoredText :=
  if municipalData.isEmpty then []
  else
    let inquiryLineNumbers := extractLineNumbers inquiryText
    let similarities := municipalData.map fun e =>
      (⟨e, scoreEntryText inquiryText inquiryLineNumbers e⟩ : ScoredText)
    (List.insertionSort (fun a b => b.similarity ≤ a.similarity)
      (similarities.filter fun s => decide (threshold ≤ s.similarity))).take maxResults

/-!
Embedding (cosine) similarity and semantic matching.  Scores on this
path are real numbers (the source divides by `Math.sqrt`); a missing
vector is `Option.none`.
-/

/-- The dot-product loop of `cosineSimilarity`. -/
def dotList (a b : List ℝ) : ℝ :=
  (List.zipWith (fun x y => x * y) a b).sum

/-- The accumulated squared norm of `cosineSimilarity`. -/
def normSqList (a : List ℝ) : ℝ :=
  (a.map fun x => x * x).sum

open Classical in
/-- Source `cosineSimilarity`: `0` when either vector is absent or the lengths
differ; otherwise `dot / (√normA · √normB)`, with `0` returned when that
magnitude is zero. -/
noncomputable def cosineSimilarity (a b : Option (List ℝ)) : ℝ :=
  match a, b with
  | some va, some vb =>
    if va.length ≠ vb.length then 0
    else
      if Real.sqrt (normSqList va) * Real.sqrt (normSqList vb) = 0 then 0
      else dotList va vb / (Real.sqrt (normSqList va) * Real.sqrt (normSqList vb))
  | _, _ => 0

/-- An element of the list returned by `findSemanticMatches`. -/
structure ScoredSem where
  entry : Entry
  similarity : ℝ

/-- The final score of one record inside the semantic search: the cosine
similarity to the inquiry embedding, boosted additively by `0.1` times
the fraction of the inquiry's line numbers shared with the record, capped
at `1.0`. -/
noncomputable def scoreEntrySemantic (inquiryEmbedding : List ℝ)
    (inquiryLineNumbers : List Nat) (e : Entry) (embedding : Option (List ℝ)) : ℝ :=
  let semanticSimilarity := cosineSimilarity (some inquiryEmbedding) embedding
  if !inquiryLineNumbers.isEmpty then
    let entryLines := extractLineNumbers (entrySearchText e)
    let common := inquiryLineNumbers.filter fun n => entryLines.contains n
    if !common.isEmpty then
      min 1 (semanticSimilarity +
        (0.1 : ℝ) * ((common.length : ℝ) / (inquiryLineNumbers.length : ℝ)))
    else semanticSimilarity
  else semanticSimilarity

/-- Embed a lexical result in the semantic result type (same entry, same
score value). -/
def toSem (s : ScoredText) : ScoredSem :=
  ⟨s.entry, (s.similarity : ℝ)⟩

open Classical in
/-- Source `findSemanticMatches`.  The state flags `embeddingsReady` and
`openaiAvailable` and the outcome of the awaited
`generateEmbedding(inquiryText)` call (a vector, or the thrown error) are
passed explicitly.  When embeddings are not ready or the provider is
unavailable, and likewise when the embedding call throws, the function
returns `findTextMatches` with threshold `0.2`; otherwise it scores all
records against the inquiry embedding, filters by the threshold, sorts
descending and truncates. -/
noncomputable def findSemanticMatches (embeddingsReady openaiAvailable : Bool)
    (embedInquiry : Except (List Char) (List ℝ)) (inquiryText : List Char)
    (threshold : ℝ) (maxResults : Nat)
    (municipalData : List (Entry × Option (List ℝ))) : List ScoredSem :=
  if municipalData.isEmpty then []
  else if !embeddingsReady || !openaiAvailable then
    (findTextMatches inquiryText 0.2 maxResults (municipalData.map Prod.fst)).map toSem
  else
    match embedInquiry with
    | .error _ =>
      (findTextMatches inquiryText 0.2 maxResults (municipalData.map Prod.fst)).map toSem
    | .ok inquiryEmbedding =>
      let inquiryLineNumbers := extractLineNumbers inquiryText
      let similarities := municipalData.map fun pe =>
        (⟨pe.1, scoreEntrySemantic inquiryEmbedding inquiryLineNumbers pe.1 pe.2⟩ : ScoredSem)
      (List.insertionSort (fun a b => b.similarity ≤ a.similarity)
        (similarities.filter fun s => decide (threshold ≤ s.similarity))).take maxResults

/-!
Spec-side definitions and concrete instances used by the theorems.
-/

/-- Modelled from the claim's formula for the structured score:
`0.4 × (fraction of the query's line numbers present in the record) +
0.3 × (fraction of query locations present) + 0.2 × (1 if the problem
type matches else 0) + 0.1 × (fraction of residual keywords present)`;
an empty query component contributes a zero fraction. -/
def structuredScoreSpec (qa : QueryAnalysis) (combined : List Char) : ℚ :=
  (0.4 : ℚ) * (if qa.busLines.isEmpty then 0 else
    (((qa.busLines.filter fun n => (extractLineNumbers combined).contains n).length : ℚ)) /
      ((qa.busLines.length : ℚ))) +
  (0.3 : ℚ) * (if qa.locations.isEmpty then 0 else
    (((qa.locations.filter fun loc => containsSub combined loc).length : ℚ)) /
      ((qa.locations.length : ℚ))) +
  (0.2 : ℚ) * (match qa.problemType with
    | some t => if (analyzeQuery combined).problemType == some t then 1 else 0
    | none => 0) +
  (0.1 : ℚ) * (if qa.keywords.isEmpty then 0 else
    (((qa.keywords.filter fun kw => containsSub combined (kw.map jsToLower)).length : ℚ)) /
      ((qa.keywords.length : ℚ)))

/-- The inquiry line numbers shared with a record's searchable text (the
`commonLines` of both boosting loops, for the inquiry's own line list). -/
def sharedLines (inquiryText : List Char) (e : Entry) : List Nat :=
  (extractLineNumbers inquiryText).filter fun n =>
    (extractLineNumbers (entrySearchText e)).contains n

/-- The unboosted lexical score of a record: the larger of the two
Jaccard similarities. -/
def baseTextSimilarity (inquiryText : List Char) (e : Entry) : ℚ :=
  max (calculateTextSimilarity inquiryText e.inquiry_text)
    (calculateTextSimilarity inquiryText e.response_text)

/-- Fold a list of `addInteraction` inputs
(timestamp, inquiry, response, metadata) over a conversation context. -/
def applyInteractions (ctx : ConversationContext)
    (ops : List (Nat × List Char × List Char × List (List Char × List Char))) :
    ConversationContext :=
  ops.foldl (fun c op => addInteraction c op.1 op.2.1 op.2.2.1 op.2.2.2) ctx

/-- A generated response mentioning the fabricated line 999 but passing
every other check of the validator (length 124, Hebrew fraction 98/124,
greeting, signature, three sentences, both inquiry key terms present). -/
def sampleResponse999 : List Char :=
  ("שלום, בנוגע לבקשתך בעניין שינוי מסלול של קו 999 בשכונה. " ++
   "הנושא הועבר לבדיקת הגורמים המקצועיים אצלנו. בברכה, תוכנית אב לתחבורה").toList

/-- An inquiry whose key terms are the domain keywords שינוי and מסלול. -/
def sampleInquiryRoute : List Char :=
  "שינוי מסלול".toList

/-- A two-entry cache at capacity 2 with TTL 10 ms used as the C3
witness instance. -/
def c3Cache : ResponseCache :=
  ⟨[("a".toList, ⟨"x".toList, 0, 0⟩), ("b".toList, ⟨"y".toList, 5, 0⟩)], 2, 10⟩

/-- Six interaction inputs used by the C9 witness. -/
def c9Ops : List (Nat × List Char × List Char × List (List Char × List Char)) :=
  [(1, "א".toList, "ב".toList, []), (2, "ג".toList, "ד".toList, []),
   (3, "ה".toList, "ו".toList, []), (4, "ז".toList, "ח".toList, []),
   (5, "ט".toList, "י".toList, []), (6, "כ".toList, "ל".toList, [])]

/-- A conversation context already holding five turns, used by the C9
witness. -/
def c9Full : ConversationContext :=
  ⟨"s".toList,
   [⟨"א".toList, "ב".toList, 1, []⟩, ⟨"ג".toList, "ד".toList, 2, []⟩,
    ⟨"ה".toList, "ו".toList, 3, []⟩, ⟨"ז".toList, "ח".toList, 4, []⟩,
    ⟨"ט".toList, "י".toList, 5, []⟩], 5, []⟩

/-- The end-to-end scenario inquiry of the claim. -/
def c4Inquiry : List Char :=
  "קו 408 שינוי מסלול".toList

/-- The end-to-end scenario record: its inquiry text contains "קו 408". -/
def c4Record : Entry :=
  ⟨[], "קו 408 שינוי מסלול".toList, []⟩

/-!
Claim theorems.
-/

/-- C1: boundary-safe line matching — the matcher accepts a target line
identifier in a text iff one of its three patterns matches, and satisfies
every binding acceptance case: for target "30" the texts
"קו 30 לא מגיע", "קווים 30, 40" and bare "30" match while "קו 630 מגיע",
"בקו 1305" and "630" do not; for target "408" the texts "קו 408 של חברת"
and "הוספת תחנה בנסיעת קו 408" match while "4408" does not. -/
theorem c1_boundary_safe_line_matching :
    lineMatches "קו 30 לא מגיע".toList "30".toList = true ∧
    lineMatches "קווים 30, 40".toList "30".toList = true ∧
    lineMatches "30".toList "30".toList = true ∧
    lineMatches "קו 630 מגיע".toList "30".toList = false ∧
    lineMatches "בקו 1305".toList "30".toList = false ∧
    lineMatches "630".toList "30".toList = false ∧
    lineMatches "קו 408 של חברת".toList "408".toList = true ∧
    lineMatches "הוספת תחנה בנסיעת קו 408".toList "408".toList = true ∧
    lineMatches "4408".toList "408".toList = false := by
  decide

/-- C2 counterexample: `sampleResponse999` mentions line 999, which is
absent from the registry, yet `validateGPTResponse` returns
`is_valid = true` for it — the source's final statement
`isValid = score >= 60` overwrites the flag set in the hallucination
branch, and the score here is `100 − 15 = 85 ≥ 60`. -/
theorem c2_counterexample :
    detectHallucinations sampleResponse999 = ["999".toList] ∧
    (validateGPTResponse sampleResponse999 sampleInquiryRoute).isValid = true ∧
    (validateGPTResponse sampleResponse999 sampleInquiryRoute).score = 85 := by
  decide

/-- C2 (amended): a line mention absent from the registry reduces the
score by 15 per offending line, and `is_valid` is finally recomputed as
`score ≥ 60`; consequently a response with at least three offending lines
is always invalid, but a response with fewer offending lines can still be
returned as valid. -/
theorem c2_hallucination_penalty (response inquiry : List Char) :
    (validateGPTResponse response inquiry).score ≤
      100 - 15 * ((detectHallucinations response).length : Int) ∧
    (3 ≤ (detectHallucinations response).length →
      (validateGPTResponse response inquiry).isValid = false) := by
  have h1 : 0 ≤ lengthPenalty response := by
    unfold lengthPenalty; split <;> omega
  have h2 : 0 ≤ hebrewScriptPenalty response := by
    unfold hebrewScriptPenalty; split <;> omega
  have h3 : 0 ≤ relevancePenalty response inquiry := by
    unfold relevancePenalty; split <;> omega
  have h4 : 0 ≤ structurePenalty response := by
    unfold structurePenalty; split <;> omega
  constructor
  · show responseScore response inquiry ≤ _
    unfold responseScore
    omega
  · intro hh
    have hlen : (3 : Int) ≤ ((detectHallucinations response).length : Int) := by
      exact_mod_cast hh
    show decide (60 ≤ responseScore response inquiry) = false
    have hs : responseScore response inquiry ≤ 55 := by
      unfold responseScore; omega
    simp only [decide_eq_false_iff_not]
    omega

/-- C2 witness: a response mentioning three unregistered lines is
rejected by the validator. -/
theorem c2_hallucination_penalty_witness :
    3 ≤ (detectHallucinations "קו 998 קו 997 קו 996".toList).length ∧
    (validateGPTResponse "קו 998 קו 997 קו 996".toList []).isValid = false :=
  ⟨by decide, (c2_hallucination_penalty "קו 998 קו 997 קו 996".toList []).2 (by decide)⟩

/-- C10: for an inquiry from which no key terms are extractable the JS
relevance ratio is `0/0 = NaN`, `NaN ≥ 0.5` is false, so the relevance
check fails for every response and `validateGPTResponse` always applies
the 25-point relevance deduction (leaving at most 75 points). -/
theorem c10_no_key_terms_relevance (inquiry : List Char)
    (h : extractKeyTerms inquiry = []) (response : List Char) :
    checkRelevance response inquiry = false ∧
    relevancePenalty response inquiry = 25 ∧
    (validateGPTResponse response inquiry).score ≤ 75 := by
  have hc : checkRelevance response inquiry = false := by
    unfold checkRelevance
    rw [h]
    simp
  have hp : relevancePenalty response inquiry = 25 := by
    unfold relevancePenalty
    rw [hc]
    simp
  refine ⟨hc, hp, ?_⟩
  have h1 : 0 ≤ lengthPenalty response := by
    unfold lengthPenalty; split <;> omega
  have h2 : 0 ≤ hebrewScriptPenalty response := by
    unfold hebrewScriptPenalty; split <;> omega
  have h4 : 0 ≤ structurePenalty response := by
    unfold structurePenalty; split <;> omega
  have h5 : (0 : Int) ≤ 15 * ((detectHallucinations response).length : Int) := by
    positivity
  show responseScore response inquiry ≤ 75
  unfold responseScore
  omega

/-- Reading from the empty association list. -/
lemma mapGet_nil (q : List Char) : mapGet q [] = none := rfl

/-- Reading from a cons cell of the association list. -/
lemma mapGet_cons (q : List Char) (p : List Char × CacheEntry)
    (t : List (List Char × CacheEntry)) :
    mapGet q (p :: t) = if p.1 == q then some p.2 else mapGet q t := by
  by_cases h : (p.1 == q) = true
  · rw [if_pos h]
    unfold mapGet
    rw [List.find?_cons_of_pos t h]
    rfl
  · rw [if_neg h]
    unfold mapGet
    rw [List.find?_cons_of_neg t (by simpa using h)]

/-- Writing a key always makes it readable with the written value. -/
lemma mapGet_mapSet_self (k : List Char) (v : CacheEntry)
    (l : List (List Char × CacheEntry)) : mapGet k (mapSet k v l) = some v := by
  induction l with
  | nil => simp [mapSet, mapGet_cons]
  | cons p t ih =>
    by_cases hp : (p.1 == k) = true
    · simp [mapSet, hp, mapGet_cons]
    · simp [mapSet, hp, mapGet_cons, ih]

/-- Writing one key never changes the value read at another key. -/
lemma mapGet_mapSet_ne (k q : List Char) (v : CacheEntry)
    (l : List (List Char × CacheEntry)) (h : q ≠ k) :
    mapGet q (mapSet k v l) = mapGet q l := by
  have hkq : (k == q) = false := beq_eq_false_iff_ne.mpr (Ne.symm h)
  induction l with
  | nil => simp [mapSet, mapGet_cons, mapGet_nil, hkq]
  | cons p t ih =>
    by_cases hp : (p.1 == k) = true
    · have hpk : p.1 = k := eq_of_beq hp
      have hpq : (p.1 == q) = false := by rw [hpk]; exact hkq
      simp [mapSet, hp, mapGet_cons, hpq, hkq]
    · simp [mapSet, hp, mapGet_cons, ih]

/-- A key absent from the association list reads as null. -/
lemma mapGet_eq_none_of_not_mem (k : List Char)
    (l : List (List Char × CacheEntry)) (h : k ∉ l.map Prod.fst) :
    mapGet k l = none := by
  unfold mapGet
  rw [List.find?_eq_none.mpr]
  · rfl
  · intro x hx hbeq
    apply h
    have hxk : x.1 = k := eq_of_beq hbeq
    exact hxk ▸ List.mem_map_of_mem Prod.fst hx

/-- Deleting a key from a list with unique keys makes it unreadable. -/
lemma mapGet_mapDelete_of_nodup (k : List Char)
    (l : List (List Char × CacheEntry)) (h : (l.map Prod.fst).Nodup) :
    mapGet k (mapDelete k l) = none := by
  induction l with
  | nil => rfl
  | cons p t ih =>
    rw [List.map_cons, List.nodup_cons] at h
    by_cases hp : (p.1 == k) = true
    · have hpk : p.1 = k := eq_of_beq hp
      rw [mapDelete, if_pos hp]
      exact mapGet_eq_none_of_not_mem k t (hpk ▸ h.1)
    · rw [mapDelete, if_neg (by simpa using hp)]
      simpa [mapGet_cons, hp] using ih h.2

/-- C3: the response cache contract — an immediate read after a write
returns the written value; a read that finds an entry older than the TTL
deletes it and returns null; a write at capacity replaces the whole store
by the tail (the oldest entry evicted, every newer key still readable as
before, the evicted key gone unless rewritten); and a fresh read returns
the stored value leaving the store untouched (no promotion). -/
theorem c3_response_cache_contract (c : ResponseCache) (now : Nat) (k v : List Char) :
    (cacheGet (cacheSet c now k v) now k).1 = some v ∧
    (∀ e, mapGet k c.cache = some e → c.ttl < now - e.timestamp →
      (cacheGet c now k).1 = none ∧
      ((c.cache.map Prod.fst).Nodup → mapGet k (cacheGet c now k).2.cache = none)) ∧
    (∀ p t, c.cache = p :: t → c.maxSize ≤ c.cache.length →
      (cacheSet c now k v).cache = mapSet k ⟨v, now, 0⟩ t ∧
      (∀ q, q ≠ k → mapGet q (cacheSet c now k v).cache = mapGet q t) ∧
      ((c.cache.map Prod.fst).Nodup → p.1 ≠ k →
        mapGet p.1 (cacheSet c now k v).cache = none)) ∧
    (∀ e, mapGet k c.cache = some e → now - e.timestamp ≤ c.ttl →
      cacheGet c now k = (some e.response, c)) := by
  refine ⟨?_, ?_, ?_, ?_⟩
  · have hget : mapGet k (cacheSet c now k v).cache = some ⟨v, now, 0⟩ := by
      unfold cacheSet
      exact mapGet_mapSet_self k ⟨v, now, 0⟩ _
    unfold cacheGet
    rw [hget]
    simp [Nat.sub_self]
  · intro e he hexp
    unfold cacheGet
    rw [he]
    dsimp only
    rw [if_pos hexp]
    exact ⟨rfl, fun hnd => mapGet_mapDelete_of_nodup k c.cache hnd⟩
  · intro p t hc hcap
    have hbase : (cacheSet c now k v).cache = mapSet k ⟨v, now, 0⟩ t := by
      unfold cacheSet
      dsimp only
      rw [if_pos hcap, hc]
      dsimp only
      rw [mapDelete, if_pos (by simp)]
    refine ⟨hbase, fun q hq => ?_, fun hnd hpk => ?_⟩
    · rw [hbase]
      exact mapGet_mapSet_ne k q ⟨v, now, 0⟩ t hq
    · rw [hbase, mapGet_mapSet_ne k p.1 ⟨v, now, 0⟩ t hpk]
      rw [hc, List.map_cons, List.nodup_cons] at hnd
      exact mapGet_eq_none_of_not_mem p.1 t hnd.1
  · intro e he hfresh
    unfold cacheGet
    rw [he]
    dsimp only
    rw [if_neg (by omega)]

/-- C3 witness: on the concrete cache, a write-then-read roundtrip at
time 20, the lazy expiry of the entry aged 20 > 10, the capacity eviction
of the oldest key "a" with the newer key "b" kept, and a fresh
promotion-free read at time 7. -/
theorem c3_response_cache_contract_witness :
    (cacheGet (cacheSet c3Cache 20 "c".toList "z".toList) 20 "c".toList).1 =
      some "z".toList ∧
    (cacheGet c3Cache 20 "a".toList).1 = none ∧
    mapGet "a".toList (cacheGet c3Cache 20 "a".toList).2.cache = none ∧
    (cacheSet c3Cache 20 "c".toList "z".toList).cache =
      mapSet "c".toList ⟨"z".toList, 20, 0⟩ [("b".toList, ⟨"y".toList, 5, 0⟩)] ∧
    mapGet "b".toList (cacheSet c3Cache 20 "c".toList "z".toList).cache =
      mapGet "b".toList [("b".toList, ⟨"y".toList, 5, 0⟩)] ∧
    mapGet "a".toList (cacheSet c3Cache 20 "c".toList "z".toList).cache = none ∧
    cacheGet c3Cache 7 "b".toList = (some "y".toList, c3Cache) := by
  refine ⟨(c3_response_cache_contract c3Cache 20 "c".toList "z".toList).1,
    ((c3_response_cache_contract c3Cache 20 "a".toList "z".toList).2.1
      ⟨"x".toList, 0, 0⟩ (by decide) (by decide)).1,
    ((c3_response_cache_contract c3Cache 20 "a".toList "z".toList).2.1
      ⟨"x".toList, 0, 0⟩ (by decide) (by decide)).2 (by decide),
    ((c3_response_cache_contract c3Cache 20 "c".toList "z".toList).2.2.1
      ("a".toList, ⟨"x".toList, 0, 0⟩) [("b".toList, ⟨"y".toList, 5, 0⟩)]
      (by decide) (by decide)).1,
    ((c3_response_cache_contract c3Cache 20 "c".toList "z".toList).2.2.1
      ("a".toList, ⟨"x".toList, 0, 0⟩) [("b".toList, ⟨"y".toList, 5, 0⟩)]
      (by decide) (by decide)).2.1 "b".toList (by decide),
    ((c3_response_cache_contract c3Cache 20 "c".toList "z".toList).2.2.1
      ("a".toList, ⟨"x".toList, 0, 0⟩) [("b".toList, ⟨"y".toList, 5, 0⟩)]
      (by decide) (by decide)).2.2 (by decide) (by decide),
    (c3_response_cache_contract c3Cache 7 "b".toList "z".toList).2.2.2
      ⟨"y".toList, 5, 0⟩ (by decide) (by decide)⟩

/-- C10 witness: the inquiry "מה קורה" yields no key terms, and every
response (here "שלום") fails the relevance check against it. -/
theorem c10_no_key_terms_relevance_witness :
    extractKeyTerms "מה קורה".toList = [] ∧
    checkRelevance "שלום".toList "מה קורה".toList = false ∧
    (validateGPTResponse "שלום".toList "מה קורה".toList).score ≤ 75 := by
  refine ⟨by decide, ?_, ?_⟩
  · exact (c10_no_key_terms_relevance "מה קורה".toList (by decide) "שלום".toList).1
  · exact (c10_no_key_terms_relevance "מה קורה".toList (by decide) "שלום".toList).2.2

/-- Source `addInteraction` never changes the history bound. -/
lemma addInteraction_maxHistory (ctx : ConversationContext) (now : Nat)
    (inquiry response : List Char) (metadata : List (List Char × List Char)) :
    (addInteraction ctx now inquiry response metadata).maxHistory = ctx.maxHistory := rfl

/-- One `addInteraction` preserves the history bound. -/
lemma addInteraction_history_le (ctx : ConversationContext) (now : Nat)
    (inquiry response : List Char) (metadata : List (List Char × List Char))
    (h : ctx.history.length ≤ ctx.maxHistory) :
    (addInteraction ctx now inquiry response metadata).history.length ≤ ctx.maxHistory := by
  unfold addInteraction updateUserProfile
  dsimp only
  split
  · rename_i hgt
    simp only [List.length_tail, List.length_append, List.length_cons,
      List.length_nil] at *
    omega
  · rename_i hle
    simp only [List.length_append, List.length_cons, List.length_nil] at *
    omega

/-- One step of `applyInteractions`. -/
lemma applyInteractions_cons (ctx : ConversationContext)
    (op : Nat × List Char × List Char × List (List Char × List Char))
    (rest : List (Nat × List Char × List Char × List (List Char × List Char))) :
    applyInteractions ctx (op :: rest) =
      applyInteractions (addInteraction ctx op.1 op.2.1 op.2.2.1 op.2.2.2) rest := rfl

/-- Source `applyInteractions` never changes the history bound. -/
lemma applyInteractions_maxHistory
    (ops : List (Nat × List Char × List Char × List (List Char × List Char))) :
    ∀ ctx : ConversationContext,
      (applyInteractions ctx ops).maxHistory = ctx.maxHistory := by
  induction ops with
  | nil => intro ctx; rfl
  | cons op rest ih =>
    intro ctx
    rw [applyInteractions_cons, ih, addInteraction_maxHistory]

/-- The history bound is an invariant of every interaction sequence. -/
lemma applyInteractions_history_le
    (ops : List (Nat × List Char × List Char × List (List Char × List Char))) :
    ∀ ctx : ConversationContext, ctx.history.length ≤ ctx.maxHistory →
      (applyInteractions ctx ops).history.length ≤ ctx.maxHistory := by
  induction ops with
  | nil => exact fun ctx h => h
  | cons op rest ih =>
    intro ctx h
    rw [applyInteractions_cons]
    have hstep := addInteraction_history_le ctx op.1 op.2.1 op.2.2.1 op.2.2.2 h
    have := ih (addInteraction ctx op.1 op.2.1 op.2.2.1 op.2.2.2)
      (by rw [addInteraction_maxHistory]; exact hstep)
    rw [addInteraction_maxHistory] at this
    exact this

/-- C9: the conversation-history bound — starting from the constructor,
any sequence of `addInteraction` calls leaves at most 5 turns in the
history; a single `addInteraction` preserves the bound; and when the
history is exactly at the bound, the oldest (first) turn is the one
removed, the new turn appended at the end. -/
theorem c9_conversation_history_bound :
    (∀ (sid : List Char)
        (ops : List (Nat × List Char × List Char × List (List Char × List Char))),
      (applyInteractions (newConversationContext sid) ops).history.length ≤ 5) ∧
    (∀ (ctx : ConversationContext) (now : Nat) (inquiry response : List Char)
        (metadata : List (List Char × List Char)),
      ctx.history.length ≤ ctx.maxHistory →
      (addInteraction ctx now inquiry response metadata).history.length ≤
        ctx.maxHistory) ∧
    (∀ (ctx : ConversationContext) (now : Nat) (inquiry response : List Char)
        (metadata : List (List Char × List Char)),
      ctx.history.length = ctx.maxHistory → 0 < ctx.maxHistory →
      (addInteraction ctx now inquiry response metadata).history =
        ctx.history.tail ++ [⟨inquiry, response, now, metadata⟩]) := by
  refine ⟨fun sid ops => ?_, fun ctx now inquiry response metadata h =>
    addInteraction_history_le ctx now inquiry response metadata h,
    fun ctx now inquiry response metadata hlen hpos => ?_⟩
  · exact applyInteractions_history_le ops (newConversationContext sid)
      (by simp [newConversationContext])
  · unfold addInteraction updateUserProfile
    dsimp only
    rw [if_pos (by simp only [List.length_append, List.length_cons, List.length_nil]; omega)]
    cases hh : ctx.history with
    | nil => rw [hh] at hlen; simp at hlen; omega
    | cons a l => simp

/-- C9 witness: six interactions on a fresh context leave at most five
turns; adding to a context holding exactly five turns keeps five and
drops the first turn. -/
theorem c9_conversation_history_bound_witness :
    (applyInteractions (newConversationContext "s".toList) c9Ops).history.length ≤ 5 ∧
    (addInteraction c9Full 9 "ו".toList "ז".toList []).history.length ≤ c9Full.maxHistory ∧
    (addInteraction c9Full 9 "ו".toList "ז".toList []).history =
      c9Full.history.tail ++ [⟨"ו".toList, "ז".toList, 9, []⟩] :=
  ⟨c9_conversation_history_bound.1 "s".toList c9Ops,
   c9_conversation_history_bound.2.1 c9Full 9 "ו".toList "ז".toList [] (by decide),
   c9_conversation_history_bound.2.2 c9Full 9 "ו".toList "ז".toList []
     (by decide) (by decide)⟩

/-- C6: lexical (Jaccard) similarity properties — scores are within
`[0, 1]`; the function is symmetric; a text with a non-empty normalized
token list has similarity 1 with itself; and when either text normalizes
to an empty token list the similarity is 0. -/
theorem c6_jaccard_properties (t1 t2 t : List Char) :
    0 ≤ calculateTextSimilarity t1 t2 ∧
    calculateTextSimilarity t1 t2 ≤ 1 ∧
    calculateTextSimilarity t1 t2 = calculateTextSimilarity t2 t1 ∧
    (normalizeTokens t ≠ [] → calculateTextSimilarity t t = 1) ∧
    (normalizeTokens t1 = [] ∨ normalizeTokens t2 = [] →
      calculateTextSimilarity t1 t2 = 0) := by
  refine ⟨?_, ?_, ?_, ?_, ?_⟩
  · unfold calculateTextSimilarity
    dsimp only
    split
    · exact le_refl 0
    · split
      · exact le_refl 0
      · positivity
  · unfold calculateTextSimilarity
    dsimp only
    split
    · norm_num
    · split
      · norm_num
      · rename_i hout hin
        have ha : normalizeTokens t1 ≠ [] := by
          intro hh
          apply hin
          rw [hh]
          simp
        have hmem : ((normalizeTokens t1).toFinset ∪ (normalizeTokens t2).toFinset).Nonempty := by
          obtain ⟨x, hx⟩ := List.exists_mem_of_ne_nil _ ha
          exact ⟨x, Finset.mem_union_left _ (List.mem_toFinset.mpr hx)⟩
        apply div_le_one_of_le₀
        · exact_mod_cast Finset.card_le_card Finset.inter_subset_union
        · positivity
  · unfold calculateTextSimilarity
    dsimp only
    rw [Bool.or_comm t1.isEmpty t2.isEmpty,
      Bool.or_comm (normalizeTokens t1).isEmpty (normalizeTokens t2).isEmpty,
      Finset.inter_comm, Finset.union_comm]
  · intro hne
    have htne : t.isEmpty = false := by
      cases htt : t.isEmpty
      · rfl
      · rw [List.isEmpty_iff] at htt
        rw [htt] at hne
        exact absurd rfl hne
    unfold calculateTextSimilarity
    dsimp only
    rw [htne]
    have hwne : (normalizeTokens t).isEmpty = false := by
      cases hw : (normalizeTokens t).isEmpty
      · rfl
      · rw [List.isEmpty_iff] at hw
        exact absurd hw hne
    rw [hwne]
    simp only [Bool.or_self, Bool.false_eq_true, if_false]
    rw [Finset.inter_self, Finset.union_self]
    apply div_self
    have hpos : 0 < (normalizeTokens t).toFinset.card := by
      apply Finset.card_pos.mpr
      obtain ⟨x, hx⟩ := List.exists_mem_of_ne_nil _ hne
      exact ⟨x, List.mem_toFinset.mpr hx⟩
    exact_mod_cast Nat.pos_iff_ne_zero.mp hpos
  · intro h
    unfold calculateTextSimilarity
    dsimp only
    split
    · rfl
    · have hc : ((normalizeTokens t1).isEmpty || (normalizeTokens t2).isEmpty) = true := by
        rcases h with h | h <;> rw [h] <;> simp
      simp only [hc, if_true]

/-- C6 witness: a Hebrew text with two tokens has self-similarity 1; a
text of punctuation only normalizes to no tokens and has similarity 0
with any text. -/
theorem c6_jaccard_properties_witness :
    normalizeTokens "קו שלושים".toList ≠ [] ∧
    calculateTextSimilarity "קו שלושים".toList "קו שלושים".toList = 1 ∧
    normalizeTokens "??".toList = [] ∧
    calculateTextSimilarity "??".toList "אבג".toList = 0 :=
  ⟨by decide,
   (c6_jaccard_properties "אבג".toList "אבג".toList "קו שלושים".toList).2.2.2.1
     (by decide),
   by decide,
   (c6_jaccard_properties "??".toList "אבג".toList "קו שלושים".toList).2.2.2.2
     (Or.inl (by decide))⟩

/-- The line component equals its weighted-fraction form. -/
lemma smartScoreLines_fst (qa : QueryAnalysis) (combined : List Char) :
    (smartScoreLines qa combined).1 =
      (0.4 : ℚ) * (if qa.busLines.isEmpty then 0 else
        (((qa.busLines.filter fun n => (extractLineNumbers combined).contains n).length : ℚ)) /
          ((qa.busLines.length : ℚ))) := by
  unfold smartScoreLines
  by_cases hb : qa.busLines.isEmpty = true
  · rw [if_neg (by rw [hb]; decide), if_pos hb]
    norm_num
  · have hb2 : qa.busLines.isEmpty = false := by
      cases h : qa.busLines.isEmpty
      · rfl
      · exact absurd h hb
    rw [if_pos (show (!qa.busLines.isEmpty) = true by rw [hb2]; rfl), if_neg hb]
    dsimp only
    by_cases hm : (qa.busLines.filter fun n =>
        (extractLineNumbers combined).contains n).isEmpty = true
    · rw [if_neg (by rw [hm]; decide)]
      rw [List.isEmpty_iff] at hm
      rw [hm]
      simp
    · have hm2 : (qa.busLines.filter fun n =>
          (extractLineNumbers combined).contains n).isEmpty = false := by
        cases h : (qa.busLines.filter fun n =>
            (extractLineNumbers combined).contains n).isEmpty
        · rfl
        · exact absurd h hm
      rw [if_pos (show (!(qa.busLines.filter fun n =>
        (extractLineNumbers combined).contains n).isEmpty) = true by rw [hm2]; rfl)]

/-- The location component equals its weighted-fraction form. -/
lemma smartScoreLocations_fst (qa : QueryAnalysis) (combined : List Char) :
    (smartScoreLocations qa combined).1 =
      (0.3 : ℚ) * (if qa.locations.isEmpty then 0 else
        (((qa.locations.filter fun loc => containsSub combined loc).length : ℚ)) /
          ((qa.locations.length : ℚ))) := by
  unfold smartScoreLocations
  by_cases hb : qa.locations.isEmpty = true
  · rw [if_neg (by rw [hb]; decide), if_pos hb]
    norm_num
  · have hb2 : qa.locations.isEmpty = false := by
      cases h : qa.locations.isEmpty
      · rfl
      · exact absurd h hb
    rw [if_pos (show (!qa.locations.isEmpty) = true by rw [hb2]; rfl), if_neg hb]
    dsimp only
    by_cases hm : (qa.locations.filter fun loc => containsSub combined loc).isEmpty = true
    · rw [if_neg (by rw [hm]; decide)]
      rw [List.isEmpty_iff] at hm
      rw [hm]
      simp
    · have hm2 : (qa.locations.filter fun loc =>
          containsSub combined loc).isEmpty = false := by
        cases h : (qa.locations.filter fun loc => containsSub combined loc).isEmpty
        · rfl
        · exact absurd h hm
      rw [if_pos (show (!(qa.locations.filter fun loc =>
        containsSub combined loc).isEmpty) = true by rw [hm2]; rfl)]

/-- The problem-type component equals its weighted-indicator form. -/
lemma smartScoreType_fst (qa : QueryAnalysis) (combined : List Char) :
    (smartScoreType qa combined).1 =
      (0.2 : ℚ) * (match qa.problemType with
        | some t => if (analyzeQuery combined).problemType == some t then 1 else 0
        | none => 0) := by
  unfold smartScoreType
  cases qa.problemType with
  | none => norm_num
  | some t =>
    by_cases hm : ((analyzeQuery combined).problemType == some t) = true
    · simp [hm]
    · simp [hm]

/-- The keyword component equals its weighted-fraction form. -/
lemma smartScoreKeywords_fst (qa : QueryAnalysis) (combined : List Char) :
    (smartScoreKeywords qa combined).1 =
      (0.1 : ℚ) * (if qa.keywords.isEmpty then 0 else
        (((qa.keywords.filter fun kw => containsSub combined (kw.map jsToLower)).length : ℚ)) /
          ((qa.keywords.length : ℚ))) := by
  unfold smartScoreKeywords
  by_cases hb : qa.keywords.isEmpty = true
  · rw [if_neg (by rw [hb]; decide), if_pos hb]
    norm_num
  · have hb2 : qa.keywords.isEmpty = false := by
      cases h : qa.keywords.isEmpty
      · rfl
      · exact absurd h hb
    rw [if_pos (show (!qa.keywords.isEmpty) = true by rw [hb2]; rfl), if_neg hb]
    dsimp only
    by_cases hm : (qa.keywords.filter fun kw =>
        containsSub combined (kw.map jsToLower)).isEmpty = true
    · rw [if_neg (by rw [hm]; decide)]
      rw [List.isEmpty_iff] at hm
      rw [hm]
      simp
    · have hm2 : (qa.keywords.filter fun kw =>
          containsSub combined (kw.map jsToLower)).isEmpty = false := by
        cases h : (qa.keywords.filter fun kw =>
            containsSub combined (kw.map jsToLower)).isEmpty
        · rfl
        · exact absurd h hm
      rw [if_pos (show (!(qa.keywords.filter fun kw =>
        containsSub combined (kw.map jsToLower)).isEmpty) = true by rw [hm2]; rfl)]

/-- The structured score computed by the source loop coincides with the
weighted-sum formula of the specification. -/
lemma smartScoreOf_eq_spec (qa : QueryAnalysis) (combined : List Char) :
    (smartScoreOf qa combined).1 = structuredScoreSpec qa combined := by
  unfold smartScoreOf structuredScoreSpec
  dsimp only
  rw [smartScoreLines_fst, smartScoreLocations_fst, smartScoreType_fst,
    smartScoreKeywords_fst]

/-- Every returned smart match carries the weighted-sum score of its
record and passed the `0.15` floor. -/
lemma mem_findSmartMatches_eq (inquiryText : List Char) (municipalData : List Entry)
    (maxResults : Nat) (m : ScoredMatch)
    (hm : m ∈ findSmartMatches inquiryText municipalData maxResults) :
    m.smartScore =
      structuredScoreSpec (analyzeQuery inquiryText) (entryCombinedText m.entry) ∧
    (0.15 : ℚ) < m.smartScore := by
  unfold findSmartMatches at hm
  dsimp only at hm
  replace hm := List.take_subset _ _ hm
  replace hm := (List.perm_insertionSort _ _).mem_iff.mp hm
  obtain ⟨e, he, heq⟩ := List.mem_filterMap.mp hm
  by_cases hgt :
      (0.15 : ℚ) < (smartScoreOf (analyzeQuery inquiryText) (entryCombinedText e)).1
  · rw [if_pos hgt] at heq
    obtain rfl := Option.some.inj heq
    exact ⟨smartScoreOf_eq_spec _ _, hgt⟩
  · rw [if_neg hgt] at heq
    cases heq

/-- Evaluation of the end-to-end scenario: the single record scores
`0.4 + 0.2 + 0.1 = 0.7` (line 408 shared, problem type matched, both
keywords present) and is returned with its three reasons. -/
lemma findSmartMatches_c4 :
    findSmartMatches c4Inquiry [c4Record] 10 =
      [⟨c4Record, 7/10, "קווים: 408 | סוג: שינוי מסלול | מילים: 2".toList⟩] := by
  have hscore :
      (smartScoreOf (analyzeQuery c4Inquiry) (entryCombinedText c4Record)).1 = 7/10 := by
    rw [smartScoreOf_eq_spec]
    unfold structuredScoreSpec
    rw [show analyzeQuery c4Inquiry =
      ⟨[408], [], some ("שינוי מסלול".toList), ["שינוי".toList, "מסלול".toList]⟩ from
      by decide]
    dsimp only
    rw [show (List.filter (fun n =>
        (extractLineNumbers (entryCombinedText c4Record)).contains n) [408]) = [408] from
      by decide]
    rw [show (analyzeQuery (entryCombinedText c4Record)).problemType =
        some ("שינוי מסלול".toList) from by decide]
    rw [show (List.filter (fun kw => containsSub (entryCombinedText c4Record)
        (kw.map jsToLower)) ["שינוי".toList, "מסלול".toList]) =
        ["שינוי".toList, "מסלול".toList] from by decide]
    norm_num
  unfold findSmartMatches
  dsimp only
  simp only [List.filterMap_cons, List.filterMap_nil]
  rw [hscore, if_pos (show (0.15 : ℚ) < 7/10 by norm_num)]
  rw [show List.intercalate " | ".toList
      (smartScoreOf (analyzeQuery c4Inquiry) (entryCombinedText c4Record)).2 =
      "קווים: 408 | סוג: שינוי מסלול | מילים: 2".toList from by decide]
  simp [List.insertionSort, List.orderedInsert]

/-- C4: structured-first fusion — every record returned by
`findSmartMatches` carries exactly the weighted structured score
`0.4×(line fraction) + 0.3×(location fraction) + 0.2×(type match) +
0.1×(keyword fraction)` and only records scoring strictly above `0.15`
are kept; for the inquiry "קו 408 שינוי מסלול" and a record whose text
contains "קו 408", that record is returned with score at least `0.4` and
reasons mentioning line 408. -/
theorem c4_structured_first_fusion :
    (∀ (inquiryText : List Char) (municipalData : List Entry) (maxResults : Nat)
        (m : ScoredMatch), m ∈ findSmartMatches inquiryText municipalData maxResults →
      m.smartScore =
        structuredScoreSpec (analyzeQuery inquiryText) (entryCombinedText m.entry) ∧
      (0.15 : ℚ) < m.smartScore) ∧
    (findSmartMatches c4Inquiry [c4Record] 10).map (fun m => m.entry) = [c4Record] ∧
    (∀ m ∈ findSmartMatches c4Inquiry [c4Record] 10,
      (0.4 : ℚ) ≤ m.smartScore ∧ containsSub m.matchReasons "408".toList = true) := by
  refine ⟨mem_findSmartMatches_eq, ?_, ?_⟩
  · rw [findSmartMatches_c4]
    simp
  · rw [findSmartMatches_c4]
    intro m hm
    rw [List.mem_singleton] at hm
    subst hm
    exact ⟨by norm_num, by decide⟩

/-- C4 witness: the scenario's scored record is a member of the result
list, and the general part of the claim applies to it with the
membership hypothesis discharged by the scenario evaluation. -/
theorem c4_structured_first_fusion_witness :
    (⟨c4Record, 7/10,
      "קווים: 408 | סוג: שינוי מסלול | מילים: 2".toList⟩ : ScoredMatch) ∈
      findSmartMatches c4Inquiry [c4Record] 10 ∧
    ((⟨c4Record, 7/10,
      "קווים: 408 | סוג: שינוי מסלול | מילים: 2".toList⟩ : ScoredMatch).smartScore =
      structuredScoreSpec (analyzeQuery c4Inquiry) (entryCombinedText c4Record) ∧
    (0.15 : ℚ) <
      (⟨c4Record, 7/10,
        "קווים: 408 | סוג: שינוי מסלול | מילים: 2".toList⟩ : ScoredMatch).smartScore) :=
  ⟨by rw [findSmartMatches_c4]; exact List.mem_singleton.mpr rfl,
   c4_structured_first_fusion.1 c4Inquiry [c4Record] 10 _
     (by rw [findSmartMatches_c4]; exact List.mem_singleton.mpr rfl)⟩

/-- A non-empty list is not `isEmpty`. -/
lemma not_isEmpty_of_ne_nil {α : Type} {l : List α} (h : l ≠ []) :
    (!l.isEmpty) = true := by
  cases l with
  | nil => exact absurd rfl h
  | cons a t => rfl

/-- C8: line-number boost formula — when the inquiry has at least one
line number and the record shares at least one of them, the final score
is `min(1, base + w × |shared| / |query lines|)` with `w = 0.3` for the
lexical score and `w = 0.1` for the embedding score; with no shared lines
or no inquiry lines the base similarity is returned unchanged. -/
theorem c8_line_number_boost (inquiryText : List Char) (e : Entry)
    (inquiryEmbedding : List ℝ) (embedding : Option (List ℝ)) :
    (extractLineNumbers inquiryText ≠ [] → sharedLines inquiryText e ≠ [] →
      scoreEntryText inquiryText (extractLineNumbers inquiryText) e =
        min 1 (baseTextSimilarity inquiryText e +
          (0.3 : ℚ) * (((sharedLines inquiryText e).length : ℚ) /
            ((extractLineNumbers inquiryText).length : ℚ))) ∧
      scoreEntrySemantic inquiryEmbedding (extractLineNumbers inquiryText) e embedding =
        min 1 (cosineSimilarity (some inquiryEmbedding) embedding +
          (0.1 : ℝ) * (((sharedLines inquiryText e).length : ℝ) /
            ((extractLineNumbers inquiryText).length : ℝ)))) ∧
    (sharedLines inquiryText e = [] →
      scoreEntryText inquiryText (extractLineNumbers inquiryText) e =
        baseTextSimilarity inquiryText e ∧
      scoreEntrySemantic inquiryEmbedding (extractLineNumbers inquiryText) e embedding =
        cosineSimilarity (some inquiryEmbedding) embedding) ∧
    (extractLineNumbers inquiryText = [] →
      scoreEntryText inquiryText (extractLineNumbers inquiryText) e =
        baseTextSimilarity inquiryText e ∧
      scoreEntrySemantic inquiryEmbedding (extractLineNumbers inquiryText) e embedding =
        cosineSimilarity (some inquiryEmbedding) embedding) := by
  refine ⟨fun hq hs => ⟨?_, ?_⟩, fun hs => ⟨?_, ?_⟩, fun hq => ⟨?_, ?_⟩⟩
  · unfold scoreEntryText baseTextSimilarity
    unfold sharedLines at hs ⊢
    dsimp only
    rw [if_pos (not_isEmpty_of_ne_nil hq), if_pos (not_isEmpty_of_ne_nil hs)]
  · unfold scoreEntrySemantic
    unfold sharedLines at hs ⊢
    dsimp only
    rw [if_pos (not_isEmpty_of_ne_nil hq), if_pos (not_isEmpty_of_ne_nil hs)]
  · unfold scoreEntryText baseTextSimilarity
    unfold sharedLines at hs
    dsimp only
    by_cases hq : (extractLineNumbers inquiryText).isEmpty = true
    · rw [if_neg (by rw [hq]; decide)]
    · rw [if_pos (by cases h : (extractLineNumbers inquiryText).isEmpty with
        | true => exact absurd h hq
        | false => rfl), if_neg (by rw [hs]; decide)]
  · unfold scoreEntrySemantic
    unfold sharedLines at hs
    dsimp only
    by_cases hq : (extractLineNumbers inquiryText).isEmpty = true
    · rw [if_neg (by rw [hq]; decide)]
    · rw [if_pos (by cases h : (extractLineNumbers inquiryText).isEmpty with
        | true => exact absurd h hq
        | false => rfl), if_neg (by rw [hs]; decide)]
  · unfold scoreEntryText baseTextSimilarity
    dsimp only
    rw [if_neg (by rw [hq]; decide)]
  · unfold scoreEntrySemantic
    dsimp only
    rw [if_neg (by rw [hq]; decide)]

/-- C8 witness: for the inquiry "קו 30", a record mentioning line 30 gets
the boosted lexical and embedding scores, and a record mentioning only
line 40 keeps its base scores. -/
theorem c8_line_number_boost_witness :
    extractLineNumbers "קו 30".toList ≠ [] ∧
    sharedLines "קו 30".toList ⟨[], "קו 30".toList, []⟩ ≠ [] ∧
    scoreEntryText "קו 30".toList (extractLineNumbers "קו 30".toList)
        ⟨[], "קו 30".toList, []⟩ =
      min 1 (baseTextSimilarity "קו 30".toList ⟨[], "קו 30".toList, []⟩ +
        (0.3 : ℚ) * (((sharedLines "קו 30".toList ⟨[], "קו 30".toList, []⟩).length : ℚ) /
          ((extractLineNumbers "קו 30".toList).length : ℚ))) ∧
    sharedLines "קו 30".toList ⟨[], "קו 40".toList, []⟩ = [] ∧
    scoreEntryText "קו 30".toList (extractLineNumbers "קו 30".toList)
        ⟨[], "קו 40".toList, []⟩ =
      baseTextSimilarity "קו 30".toList ⟨[], "קו 40".toList, []⟩ :=
  ⟨by decide, by decide,
   ((c8_line_number_boost "קו 30".toList ⟨[], "קו 30".toList, []⟩ [1] none).1
     (by decide) (by decide)).1,
   by decide,
   ((c8_line_number_boost "קו 30".toList ⟨[], "קו 40".toList, []⟩ [1] none).2.1
     (by decide)).1⟩

/-- C5: degraded-mode policy — when embeddings are not ready or the
provider is unavailable, and likewise when the embedding call itself
throws, `findSemanticMatches` returns exactly the lexical text matching
result at threshold `0.2` (no exception reaches the caller: the function
is total), and the lexical result the caller receives is ranked
(pairwise descending by score). -/
theorem c5_degraded_mode (embeddingsReady openaiAvailable : Bool)
    (embedInquiry : Except (List Char) (List ℝ)) (inquiryText : List Char)
    (threshold : ℝ) (maxResults : Nat)
    (municipalData : List (Entry × Option (List ℝ))) :
    ((embeddingsReady = false ∨ openaiAvailable = false) →
      findSemanticMatches embeddingsReady openaiAvailable embedInquiry inquiryText
          threshold maxResults municipalData =
        (findTextMatches inquiryText 0.2 maxResults
          (municipalData.map Prod.fst)).map toSem) ∧
    (∀ err, embedInquiry = Except.error err →
      findSemanticMatches embeddingsReady openaiAvailable embedInquiry inquiryText
          threshold maxResults municipalData =
        (findTextMatches inquiryText 0.2 maxResults
          (municipalData.map Prod.fst)).map toSem) ∧
    List.Pairwise (fun a b => b.similarity ≤ a.similarity)
      (findTextMatches inquiryText 0.2 maxResults (municipalData.map Prod.fst)) := by
  have hempty : municipalData.isEmpty = true →
      ([] : List ScoredSem) =
        (findTextMatches inquiryText 0.2 maxResults
          (municipalData.map Prod.fst)).map toSem := by
    intro hd
    rw [List.isEmpty_iff.mp hd]
    rfl
  refine ⟨?_, ?_, ?_⟩
  · intro h
    unfold findSemanticMatches
    by_cases hd : municipalData.isEmpty = true
    · rw [if_pos hd]
      exact hempty hd
    · rw [if_neg hd]
      rcases h with h | h
      · subst h
        rw [if_pos (show (!false || !openaiAvailable) = true from rfl)]
      · subst h
        rw [if_pos (show (!embeddingsReady || !false) = true by simp)]
  · intro err herr
    unfold findSemanticMatches
    by_cases hd : municipalData.isEmpty = true
    · rw [if_pos hd]
      exact hempty hd
    · rw [if_neg hd]
      by_cases hf : (!embeddingsReady || !openaiAvailable) = true
      · rw [if_pos hf]
      · rw [if_neg hf, herr]
  · unfold findTextMatches
    by_cases hd : (municipalData.map Prod.fst).isEmpty = true
    · rw [if_pos hd]
      exact List.Pairwise.nil
    · rw [if_neg hd]
      dsimp only
      apply List.Pairwise.sublist (List.take_sublist _ _)
      haveI : IsTotal ScoredText (fun a b : ScoredText => b.similarity ≤ a.similarity) :=
        ⟨fun a b => le_total b.similarity a.similarity⟩
      haveI : IsTrans ScoredText (fun a b : ScoredText => b.similarity ≤ a.similarity) :=
        ⟨fun a b c h1 h2 => le_trans h2 h1⟩
      exact List.sorted_insertionSort
        (fun a b : ScoredText => b.similarity ≤ a.similarity) _

/-- C5 witness: with embeddings unavailable (and with the embedding call
throwing), the semantic search on a one-record corpus returns the lexical
result at threshold `0.2`, which is ranked. -/
theorem c5_degraded_mode_witness :
    findSemanticMatches false true (Except.error "down".toList) "קו 30".toList
        0.78 5 [(⟨[], "קו 30".toList, []⟩, none)] =
      (findTextMatches "קו 30".toList 0.2 5 [⟨[], "קו 30".toList, []⟩]).map toSem ∧
    findSemanticMatches true true (Except.error "down".toList) "קו 30".toList
        0.78 5 [(⟨[], "קו 30".toList, []⟩, none)] =
      (findTextMatches "קו 30".toList 0.2 5 [⟨[], "קו 30".toList, []⟩]).map toSem ∧
    List.Pairwise (fun a b => b.similarity ≤ a.similarity)
      (findTextMatches "קו 30".toList 0.2 5 [⟨[], "קו 30".toList, []⟩]) :=
  ⟨(c5_degraded_mode false true (Except.error "down".toList) "קו 30".toList 0.78 5
      [(⟨[], "קו 30".toList, []⟩, none)]).1 (Or.inl rfl),
   (c5_degraded_mode true true (Except.error "down".toList) "קו 30".toList 0.78 5
      [(⟨[], "קו 30".toList, []⟩, none)]).2.1 "down".toList rfl,
   (c5_degraded_mode true true (Except.error "down".toList) "קו 30".toList 0.78 5
      [(⟨[], "קו 30".toList, []⟩, none)]).2.2⟩

/-- The accumulated squared norm is non-negative. -/
lemma normSqList_nonneg (a : List ℝ) : 0 ≤ normSqList a := by
  unfold normSqList
  apply List.sum_nonneg
  intro x hx
  obtain ⟨y, hy, rfl⟩ := List.mem_map.mp hx
  exact mul_self_nonneg y

/-- Unfolding the squared norm over a cons cell. -/
lemma normSqList_cons (x : ℝ) (xs : List ℝ) :
    normSqList (x :: xs) = x * x + normSqList xs := by
  unfold normSqList
  simp

/-- Unfolding the dot product over cons cells. -/
lemma dotList_cons (x y : ℝ) (xs ys : List ℝ) :
    dotList (x :: xs) (y :: ys) = x * y + dotList xs ys := by
  unfold dotList
  simp

/-- Cauchy–Schwarz for the list dot product (holds for any two lists:
`zipWith` truncates and extra terms only increase the right side). -/
lemma dotList_sq_le (va vb : List ℝ) :
    dotList va vb ^ 2 ≤ normSqList va * normSqList vb := by
  induction va generalizing vb with
  | nil => simp [dotList, normSqList]
  | cons x xs ih =>
    cases vb with
    | nil => simp [dotList, normSqList]
    | cons y ys =>
      rw [dotList_cons, normSqList_cons, normSqList_cons]
      have hA := normSqList_nonneg xs
      have hB := normSqList_nonneg ys
      have hD := ih ys
      rcases eq_or_lt_of_le hA with hA0 | hApos
      · have hDsq : dotList xs ys ^ 2 = 0 := by
          apply le_antisymm _ (sq_nonneg _)
          calc dotList xs ys ^ 2 ≤ normSqList xs * normSqList ys := hD
          _ = 0 := by rw [← hA0, zero_mul]
        have hD0 : dotList xs ys = 0 := by
          exact pow_eq_zero_iff two_ne_zero |>.mp hDsq
        rw [hD0, ← hA0]
        nlinarith [mul_nonneg (mul_self_nonneg x) hB, sq_nonneg (x * y)]
      · nlinarith [hD, hB, hApos, sq_nonneg (x * dotList xs ys - normSqList xs * y),
          mul_nonneg (add_nonneg (mul_self_nonneg x) hA) (sub_nonneg.mpr hD)]

/-- C7: cosine similarity totality and bounds — with equal lengths and
non-zero norms the score lies in `[-1, 1]`; an absent vector, a length
mismatch, or a zero norm yields exactly `0`. -/
theorem c7_cosine_bounds (va vb : List ℝ) (a b : Option (List ℝ)) :
    (va.length = vb.length → normSqList va ≠ 0 → normSqList vb ≠ 0 →
      -1 ≤ cosineSimilarity (some va) (some vb) ∧
        cosineSimilarity (some va) (some vb) ≤ 1) ∧
    cosineSimilarity none b = 0 ∧
    cosineSimilarity a none = 0 ∧
    (va.length ≠ vb.length → cosineSimilarity (some va) (some vb) = 0) ∧
    (normSqList va = 0 → cosineSimilarity (some va) (some vb) = 0) ∧
    (normSqList vb = 0 → cosineSimilarity (some va) (some vb) = 0) := by
  refine ⟨?_, ?_, ?_, ?_, ?_, ?_⟩
  · intro hlen hA hB
    have hApos : 0 < normSqList va := lt_of_le_of_ne (normSqList_nonneg va) (Ne.symm hA)
    have hBpos : 0 < normSqList vb := lt_of_le_of_ne (normSqList_nonneg vb) (Ne.symm hB)
    have hmag : 0 < Real.sqrt (normSqList va) * Real.sqrt (normSqList vb) :=
      mul_pos (Real.sqrt_pos.mpr hApos) (Real.sqrt_pos.mpr hBpos)
    have hval : cosineSimilarity (some va) (some vb) =
        dotList va vb / (Real.sqrt (normSqList va) * Real.sqrt (normSqList vb)) := by
      unfold cosineSimilarity
      dsimp only
      rw [if_neg (fun hne => hne hlen), if_neg hmag.ne']
    have habs : |dotList va vb| ≤
        Real.sqrt (normSqList va) * Real.sqrt (normSqList vb) := by
      rw [← Real.sqrt_sq_eq_abs, ← Real.sqrt_mul hApos.le]
      exact Real.sqrt_le_sqrt (dotList_sq_le va vb)
    have hq : |cosineSimilarity (some va) (some vb)| ≤ 1 := by
      rw [hval, abs_div, abs_of_pos hmag]
      exact div_le_one_of_le₀ habs hmag.le
    exact abs_le.mp hq
  · rfl
  · cases a <;> rfl
  · intro hlen
    unfold cosineSimilarity
    dsimp only
    rw [if_pos hlen]
  · intro hA
    unfold cosineSimilarity
    dsimp only
    by_cases hlen : va.length ≠ vb.length
    · rw [if_pos hlen]
    · rw [if_neg hlen, if_pos (by rw [hA, Real.sqrt_zero, zero_mul])]
  · intro hB
    unfold cosineSimilarity
    dsimp only
    by_cases hlen : va.length ≠ vb.length
    · rw [if_pos hlen]
    · rw [if_neg hlen, if_pos (by rw [hB, Real.sqrt_zero, mul_zero])]

/-- C7 witness: two orthogonal unit vectors have equal lengths, non-zero
norms, and a cosine score within the bounds. -/
theorem c7_cosine_bounds_witness :
    ([1, 0] : List ℝ).length = ([0, 1] : List ℝ).length ∧
    normSqList ([1, 0] : List ℝ) ≠ 0 ∧
    normSqList ([0, 1] : List ℝ) ≠ 0 ∧
    (-1 ≤ cosineSimilarity (some [1, 0]) (some [0, 1]) ∧
      cosineSimilarity (some [1, 0]) (some [0, 1]) ≤ 1) :=
  ⟨rfl, by norm_num [normSqList], by norm_num [normSqList],
   (c7_cosine_bounds [1, 0] [0, 1] none none).1 rfl
     (by norm_num [normSqList]) (by norm_num [normSqList])⟩

end AvTahbura
